import Mathlib

set_option maxHeartbeats 1000000

/-!
Shallow embedding of `src/document_processor.py` (document merger, converter
and word counter) and proofs about the behaviour its specification claims.

Conventions of the embedding:
  * file paths, message text and extracted page text are `List Char`;
  * the external libraries (PyPDF2, pdf2docx, the Word automation session,
    the filesystem and the interactive input stream) are modelled as oracle
    parameters: fallible external calls are `Except (List Char) _` values,
    the glob result and the typed input lines are plain lists;
  * `log_output` is modelled by accumulating `Msg` values in order; the
    many banner lines of `display_intro` are collapsed into one marker
    message, since no claim distinguishes them;
  * the pipeline control flow of `main` and of the `__main__` block is
    modelled as a pure function producing an event trace (`Ev`), so that
    resource scoping and ordering claims can be stated.
-/

/-! ### Word counting core (`count_word_frequency`, lines 114-121)

The Python code counts, per page, the non-overlapping matches of the regex
pattern  backslash-b  + re.escape(word) + backslash-b  in the lowercased
page text, with `re.IGNORECASE`.  The embedding treats the escaped word as a
literal character sequence (which is exactly what `re.escape` guarantees),
models the word-boundary assertion of the regex engine, and models
`re.IGNORECASE` by comparing both sides through `Char.toLower`. -/

/-- Word characters in the sense of the regex class used by the boundary
assertion: alphanumeric characters and the underscore. -/
def isWordChar (c : Char) : Bool := c.isAlphanum || c == '_'

/-- Whether position `i` of the text holds a word character; out-of-range
positions count as non-word, matching the regex boundary semantics at the
ends of the subject string. -/
def wordCharAt (t : List Char) (i : Nat) : Bool :=
  match t.get? i with
  | some c => isWordChar c
  | none => false

/-- The zero-width word-boundary assertion at position `i`: the word-char
status changes between the character before `i` and the character at `i`. -/
def boundaryAt (t : List Char) (i : Nat) : Bool :=
  (if i = 0 then false else wordCharAt t (i - 1)) != wordCharAt t i

/-- A match of the whole-word pattern for the (already lowercased) word `wl`
at position `i` of text `t`: boundary, then the literal word compared
case-insensitively, then boundary. -/
def matchAt (wl t : List Char) (i : Nat) : Bool :=
  boundaryAt t i &&
  List.isPrefixOf wl ((t.drop i).map Char.toLower) &&
  boundaryAt t (i + wl.length)

/-- Left-to-right scan of `re.findall`: at each position try the pattern;
on a match, count it and resume after the matched characters (one position
further for a zero-width match, as the Python engine does); otherwise move
one position right.  `fuel` bounds the scan; it is started at
`t.length + 1` so every position of the subject is visited. -/
def scanFrom (wl t : List Char) : Nat → Nat → Nat
  | _, 0 => 0
  | i, fuel + 1 =>
    if t.length < i then 0
    else if matchAt wl t i then 1 + scanFrom wl t (i + max wl.length 1) fuel
    else scanFrom wl t (i + 1) fuel

/-- Number of non-overlapping whole-word matches of `word` in `text`:
the model of `len(re.findall(pattern, text, re.IGNORECASE))`. -/
def countMatches (word text : List Char) : Nat :=
  scanFrom (word.map Char.toLower) text 0 (text.length + 1)

/-! ### The `word_counts` dictionary

Python dictionaries keyed by the search words are modelled as association
lists in insertion order: assignment updates an existing key in place and
appends a fresh key at the end, exactly the CPython insertion-order
behaviour.  Reads in the source only ever happen on keys that are present
(the dict is pre-populated with every search word), so the default value of
`getCount` on a missing key is unreachable in the modelled code. -/

def getCount : List (List Char × Nat) → List Char → Nat
  | [], _ => 0
  | (k, v) :: rest, w => if k = w then v else getCount rest w

def setCount : List (List Char × Nat) → List Char → Nat → List (List Char × Nat)
  | [], w, v => [(w, v)]
  | (k, v0) :: rest, w, v =>
    if k = w then (k, v) :: rest else (k, v0) :: setCount rest w v

/-- The dict comprehension `{word: 0 for word in words_to_search}`. -/
def initCounts (words : List (List Char)) : List (List Char × Nat) :=
  words.foldl (fun d w => setCount d w 0) []

/-- The body of the per-page loop of `count_word_frequency`: lowercase the
extracted page text, then for each word of the list (duplicates included)
add its match count to the dict entry of that word. -/
def pageStep (words_to_search : List (List Char))
    (word_counts : List (List Char × Nat)) (page : List Char) :
    List (List Char × Nat) :=
  let text := page.map Char.toLower
  words_to_search.foldl
    (fun wc word => setCount wc word (getCount wc word + countMatches word text))
    word_counts

/-- Model of `count_word_frequency(pdf_file, words_to_search)`; the pages of
the PDF reader are given directly as their extracted texts. -/
def count_word_frequency (pages : List (List Char))
    (words_to_search : List (List Char)) : List (List Char × Nat) :=
  pages.foldl (pageStep words_to_search) (initCounts words_to_search)

/-- Spec-side abbreviation used in the theorems: the total number of
whole-word matches of `word` over the lowercased pages. -/
def totalMatches (word : List Char) (pages : List (List Char)) : Nat :=
  (pages.map fun p => countMatches word (p.map Char.toLower)).sum

/-! ### Log messages

One constructor per distinct `log_output` call site of the source; the
banner lines of `display_intro` are collapsed into `introBanner`. -/

inductive Msg where
  | execStarted
  | introBanner
  | analysisStarted
  | noFilesFound
  | ensuringPdf
  | converted (file : List Char)
  | addedPdf (file : List Char)
  | skippedUnsupported (file : List Char)
  | convError (file err : List Char)
  | mergingPdfs
  | convertingToDocx
  | enterWords
  | addedWord (w : List Char)
  | wordFreqHeader
  | wordCount (w : List Char) (n : Nat)
  | mergedSaved
  | errorOccurred (e : List Char)
  | invalidDir
  | fileShouldBe
  | fileCreated
  | fileNotCreated
  | auditCreated
  | execCompleted
  | totalTime
  deriving DecidableEq

/-! ### `get_words_to_search` (lines 102-111) -/

/-- Model of `str.strip()`: remove leading and trailing whitespace. -/
def stripChars (s : List Char) : List Char :=
  ((s.dropWhile Char.isWhitespace).reverse.dropWhile Char.isWhitespace).reverse

/-- The input loop of `get_words_to_search`: each typed line is stripped and
lowercased; a blank line (or the end of the input stream) ends the loop;
each accepted word is logged. -/
def getWordsAux : List (List Char) → List (List Char) × List Msg
  | [] => ([], [])
  | line :: rest =>
    let word := (stripChars line).map Char.toLower
    if word = [] then ([], [])
    else
      let t := getWordsAux rest
      (word :: t.1, Msg.addedWord word :: t.2)

/-- Model of `get_words_to_search()`: the prompt message is logged first,
then the input loop runs on the given line stream. -/
def get_words_to_search (inputs : List (List Char)) :
    List (List Char) × List Msg :=
  let r := getWordsAux inputs
  (r.1, Msg.enterWords :: r.2)

/-! ### `ensure_pdf_format` (lines 84-99) -/

/-- The check `file.lower().endswith(('.docx', '.doc'))`. -/
def isWordDocName (file : List Char) : Bool :=
  List.isSuffixOf (".docx".data) (file.map Char.toLower) ||
  List.isSuffixOf (".doc".data) (file.map Char.toLower)

/-- The check `file.lower().endswith('.pdf')`. -/
def isPdfName (file : List Char) : Bool :=
  List.isSuffixOf (".pdf".data) (file.map Char.toLower)

/-- Model of `ensure_pdf_format(files, output_dir)`.  The external
`convert_docx_to_pdf` call is the oracle `convert` (the output directory is
absorbed into it); an `Except.error` is the exception caught by the
per-file `try` block.  Returns the collected `pdf_files` list and the log
messages emitted, both in iteration order. -/
def ensure_pdf_format (convert : List Char → Except (List Char) (List Char)) :
    List (List Char) → List (List Char) × List Msg
  | [] => ([], [])
  | file :: rest =>
    let t := ensure_pdf_format convert rest
    if isWordDocName file then
      match convert file with
      | Except.ok pdf_file => (pdf_file :: t.1, Msg.converted file :: t.2)
      | Except.error e => (t.1, Msg.convError file e :: t.2)
    else if isPdfName file then (file :: t.1, Msg.addedPdf file :: t.2)
    else (t.1, Msg.skippedUnsupported file :: t.2)

/-- Spec-side description of the per-file result of the normalizer, used to
state the order-preserving filtering claim: a word-processor file
contributes its converted path when conversion succeeds and is dropped on a
conversion error, a PDF passes through, anything else is dropped. -/
def normalizeOne (convert : List Char → Except (List Char) (List Char))
    (file : List Char) : Option (List Char) :=
  if isWordDocName file then
    match convert file with
    | Except.ok pdf_file => some pdf_file
    | Except.error _ => none
  else if isPdfName file then some file
  else none

/-- Spec-side description of the single log message the normalizer emits
for each input file. -/
def logFor (convert : List Char → Except (List Char) (List Char))
    (file : List Char) : Msg :=
  if isWordDocName file then
    match convert file with
    | Except.ok _ => Msg.converted file
    | Except.error e => Msg.convError file e
  else if isPdfName file then Msg.addedPdf file
  else Msg.skippedUnsupported file

/-! ### `merge_pdfs` (lines 70-75)

A PDF is its page sequence (`List α` over an abstract page type).  The
`PdfMerger` state is the page sequence accumulated so far; `merger.append`
appends the full page sequence of one input, which is the documented
behaviour of the merge primitive the source calls.  `merger.write` outputs
the accumulated sequence. -/

def mergerAppend {α : Type} (merged : List α) (pdf : List α) : List α :=
  merged ++ pdf

/-- Model of `merge_pdfs(pdf_files, output_pdf)`: fold `merger.append` over
the input list in order and return the written page sequence. -/
def merge_pdfs {α : Type} (pdf_files : List (List α)) : List α :=
  pdf_files.foldl mergerAppend []

/-! ### `convert_docx_to_pdf` (lines 60-67)

The Word automation calls are modelled as a trace of events; `openRes` and
`saveRes` are oracles for whether `Documents.Open` and `doc.SaveAs` raise.
The source has no try/finally, so a raise simply truncates the trace. -/

inductive WEv where
  | dispatch
  | openDoc
  | saveAs
  | closeDoc
  | quitApp
  deriving DecidableEq

/-- Trace model of one `convert_docx_to_pdf` call: Dispatch, Open, SaveAs,
Close, Quit in source order, stopping where an oracle raises. -/
def convert_docx_to_pdf_run (openRes saveRes : Except (List Char) Unit) :
    List WEv × Except (List Char) Unit :=
  match openRes with
  | Except.error e => ([WEv.dispatch, WEv.openDoc], Except.error e)
  | Except.ok _ =>
    match saveRes with
    | Except.error e =>
      ([WEv.dispatch, WEv.openDoc, WEv.saveAs], Except.error e)
    | Except.ok _ =>
      ([WEv.dispatch, WEv.openDoc, WEv.saveAs, WEv.closeDoc, WEv.quitApp],
        Except.ok ())

/-! ### `main` (lines 124-156) and the `__main__` block (lines 159-189) -/

/-- Events of the pipeline trace: log emissions, creation and recursive
deletion of the temporary workspace (the enter and exit of the
`tempfile.TemporaryDirectory` context manager), the invocation of
`merge_pdfs` with its argument list, and the write of the final output
document by `convert_pdf_to_docx`. -/
inductive Ev where
  | log (m : Msg)
  | wsCreate
  | wsDelete
  | mergeInvoked (pdf_files : List (List Char))
  | writeOutput
  deriving DecidableEq

def evMsg : Ev → Option Msg
  | Ev.log m => some m
  | _ => none

def isWsEv : Ev → Bool
  | Ev.wsCreate => true
  | Ev.wsDelete => true
  | _ => false

/-- How the body of the `with` block in `main` ends: the early `return` of
the no-files branch, normal completion, or a propagating exception. -/
inductive BodyOut where
  | retEarly
  | normal
  | raised (e : List Char)
  deriving DecidableEq

/-- Oracles for everything external that `main` touches: the glob result,
the per-file converter, the outcomes of the merge and of the PDF-to-DOCX
conversion, the text extraction of the merged PDF, and the typed
search-word lines. -/
structure Oracles where
  inputFiles : List (List Char)
  convert : List Char → Except (List Char) (List Char)
  mergeRes : Except (List Char) Unit
  convertBackRes : Except (List Char) Unit
  extractRes : Except (List Char) (List (List Char))
  searchInputs : List (List Char)

structure BodyRes where
  evs : List Ev
  written : Bool
  outcome : BodyOut

/-- The body of the `with tempfile.TemporaryDirectory()` block of `main`,
as an event trace: enumerate, early-return when empty, normalize, merge,
convert back (writing the output), collect words, optionally count.  An
oracle error at merge, convert-back or extraction makes the body end in
`raised`. -/
def mainBody (o : Oracles) : BodyRes :=
  if o.inputFiles = [] then
    { evs := [Ev.log Msg.noFilesFound], written := false,
      outcome := BodyOut.retEarly }
  else
    let en := ensure_pdf_format o.convert o.inputFiles
    let evs1 := Ev.log Msg.ensuringPdf :: en.2.map Ev.log ++
      [Ev.log Msg.mergingPdfs, Ev.mergeInvoked en.1]
    match o.mergeRes with
    | Except.error e =>
      { evs := evs1, written := false, outcome := BodyOut.raised e }
    | Except.ok _ =>
      let evs2 := evs1 ++ [Ev.log Msg.convertingToDocx]
      match o.convertBackRes with
      | Except.error e =>
        { evs := evs2, written := false, outcome := BodyOut.raised e }
      | Except.ok _ =>
        let evs3 := evs2 ++ [Ev.writeOutput]
        let gw := get_words_to_search o.searchInputs
        let evs4 := evs3 ++ gw.2.map Ev.log
        if gw.1 = [] then
          { evs := evs4, written := true, outcome := BodyOut.normal }
        else
          match o.extractRes with
          | Except.error e =>
            { evs := evs4, written := true, outcome := BodyOut.raised e }
          | Except.ok pages =>
            let wc := count_word_frequency pages gw.1
            { evs := evs4 ++ Ev.log Msg.wordFreqHeader ::
                wc.map (fun p => Ev.log (Msg.wordCount p.1 p.2)),
              written := true, outcome := BodyOut.normal }

/-- Model of `main(input_dir, output_file)`: the analysis-started log, the
`with` block (which deletes the workspace on every way out of its body),
then the saved-message on normal completion or the top-level `except`
handler log on an exception.  Returns the trace and whether the output
document was written. -/
def main_run (o : Oracles) : List Ev × Bool :=
  let b := mainBody o
  let core := Ev.log Msg.analysisStarted :: Ev.wsCreate ::
    (b.evs ++ [Ev.wsDelete])
  match b.outcome with
  | BodyOut.retEarly => (core, b.written)
  | BodyOut.normal => (core ++ [Ev.log Msg.mergedSaved], b.written)
  | BodyOut.raised e => (core ++ [Ev.log (Msg.errorOccurred e)], b.written)

/-- Result of one whole script run: every message emitted to the console in
order, the contents written to `audit_log.txt` (`none` when the write is
never reached), and whether the output document exists afterwards (the
model equates the existence check with the pipeline having written it). -/
structure ScriptResult where
  msgs : List Msg
  audit : Option (List Msg)
  outputWritten : Bool

/-- Model of the `__main__` block: start log and intro banner, the
directory validity check, then either the invalid-directory message or the
full pipeline followed by the path/existence messages, the audit-log write
(a snapshot of the buffer at that point) and the audit-created message;
finally the completion and total-time messages in both branches. -/
def script_run (isdir : Bool) (o : Oracles) : ScriptResult :=
  let m0 := [Msg.execStarted, Msg.introBanner]
  if isdir then
    let r := main_run o
    let m1 := m0 ++ r.1.filterMap evMsg ++
      [Msg.fileShouldBe, if r.2 then Msg.fileCreated else Msg.fileNotCreated]
    { msgs := m1 ++ [Msg.auditCreated, Msg.execCompleted, Msg.totalTime],
      audit := some m1, outputWritten := r.2 }
  else
    { msgs := m0 ++ [Msg.invalidDir, Msg.execCompleted, Msg.totalTime],
      audit := none, outputWritten := false }

/-! ### Concrete oracle instances used by counterexamples and witnesses -/

/-- A run whose source directory matched no files at all. -/
def oraclesNoFiles : Oracles where
  inputFiles := []
  convert := fun _ => Except.error []
  mergeRes := Except.ok ()
  convertBackRes := Except.ok ()
  extractRes := Except.ok []
  searchInputs := [[]]

/-- A run that enumerated a single unsupported file, so the normalized PDF
list is empty. -/
def oraclesUnsupported : Oracles where
  inputFiles := ["a.txt".data]
  convert := fun _ => Except.error []
  mergeRes := Except.ok ()
  convertBackRes := Except.ok ()
  extractRes := Except.ok []
  searchInputs := [[]]

/-! ## Helper lemmas -/

theorem foldl_mergerAppend {α : Type} :
    ∀ (l : List (List α)) (acc : List α),
      l.foldl mergerAppend acc = acc ++ l.flatten
  | [], acc => by simp
  | x :: xs, acc => by
    simp [mergerAppend, foldl_mergerAppend xs, List.append_assoc]

theorem getCount_single (w : List Char) (c : Nat) :
    getCount [(w, c)] w = c := by
  simp [getCount]

theorem setCount_single (w : List Char) (c v : Nat) :
    setCount [(w, c)] w v = [(w, v)] := by
  simp [setCount]

theorem pageStep_single (w p : List Char) (c : Nat) :
    pageStep [w] [(w, c)] p =
      [(w, c + countMatches w (p.map Char.toLower))] := by
  simp [pageStep, getCount, setCount]

theorem pageStep_pair (w p : List Char) (c : Nat) :
    pageStep [w, w] [(w, c)] p =
      [(w, c + countMatches w (p.map Char.toLower)
            + countMatches w (p.map Char.toLower))] := by
  simp [pageStep, getCount, setCount]

theorem foldl_pageStep_single (w : List Char) :
    ∀ (pages : List (List Char)) (c : Nat),
      pages.foldl (pageStep [w]) [(w, c)] = [(w, c + totalMatches w pages)]
  | [], c => by simp [totalMatches]
  | p :: ps, c => by
    have h2 := foldl_pageStep_single w ps
      (c + countMatches w (p.map Char.toLower))
    simp only [List.foldl_cons, pageStep_single, h2, totalMatches,
      List.map_cons, List.sum_cons]
    congr 2
    omega

theorem foldl_pageStep_pair (w : List Char) :
    ∀ (pages : List (List Char)) (c : Nat),
      pages.foldl (pageStep [w, w]) [(w, c)] =
        [(w, c + 2 * totalMatches w pages)]
  | [], c => by simp [totalMatches]
  | p :: ps, c => by
    have h2 := foldl_pageStep_pair w ps
      (c + countMatches w (p.map Char.toLower)
         + countMatches w (p.map Char.toLower))
    simp only [List.foldl_cons, pageStep_pair, h2, totalMatches,
      List.map_cons, List.sum_cons]
    congr 2
    omega

theorem count_word_frequency_single (w : List Char)
    (pages : List (List Char)) :
    count_word_frequency pages [w] = [(w, totalMatches w pages)] := by
  have h0 : initCounts [w] = [(w, 0)] := by simp [initCounts, setCount]
  have := foldl_pageStep_single w pages 0
  simpa [count_word_frequency, h0] using this

theorem count_word_frequency_pair (w : List Char)
    (pages : List (List Char)) :
    count_word_frequency pages [w, w] =
      [(w, 2 * totalMatches w pages)] := by
  have h0 : initCounts [w, w] = [(w, 0)] := by simp [initCounts, setCount]
  have := foldl_pageStep_pair w pages 0
  simpa [count_word_frequency, h0] using this

theorem countMatches_lower_congr (w w' t : List Char)
    (h : w.map Char.toLower = w'.map Char.toLower) :
    countMatches w t = countMatches w' t := by
  unfold countMatches
  rw [h]

theorem totalMatches_lower_congr (w w' : List Char)
    (pages : List (List Char))
    (h : w.map Char.toLower = w'.map Char.toLower) :
    totalMatches w pages = totalMatches w' pages := by
  unfold totalMatches
  have hf : (fun p : List Char => countMatches w (p.map Char.toLower)) =
      (fun p : List Char => countMatches w' (p.map Char.toLower)) :=
    funext fun p => countMatches_lower_congr w w' (p.map Char.toLower) h
  rw [hf]

/-! ## Claim C1 -/

/-- Claim C1: for every ordered list of input PDFs, `merge_pdfs` produces an
output whose page sequence is the concatenation of the inputs in input-list
order, and whose page count is the sum of the inputs page counts. -/
theorem merge_pdfs_concat {α : Type} (pdf_files : List (List α)) :
    merge_pdfs pdf_files = pdf_files.flatten ∧
    (merge_pdfs pdf_files).length = (pdf_files.map List.length).sum := by
  have h : merge_pdfs pdf_files = pdf_files.flatten := by
    simpa [merge_pdfs] using foldl_mergerAppend pdf_files []
  exact ⟨h, by rw [h]; exact List.length_flatten pdf_files⟩

/-! ## Claim C2 -/

/-- Claim C2: for every input sequence and every behaviour of the external
converter, `ensure_pdf_format` returns exactly the order-preserving
selection of the inputs given by `normalizeOne` (PDFs pass through,
word-processor files contribute their converted path when conversion
succeeds), and it emits exactly one log message per input file as given by
`logFor` (unsupported entries and failed conversions are logged and
omitted, and processing continues with the remaining files). -/
theorem ensure_pdf_format_normalizes
    (convert : List Char → Except (List Char) (List Char)) :
    ∀ files : List (List Char),
      (ensure_pdf_format convert files).1 =
        files.filterMap (normalizeOne convert) ∧
      (ensure_pdf_format convert files).2 = files.map (logFor convert)
  | [] => by constructor <;> rfl
  | file :: rest => by
    obtain ⟨ih1, ih2⟩ := ensure_pdf_format_normalizes convert rest
    by_cases hd : isWordDocName file = true
    · cases hc : convert file <;>
        simp [ensure_pdf_format, normalizeOne, logFor, hd, hc, ih1, ih2]
    · by_cases hp : isPdfName file = true <;>
        simp [ensure_pdf_format, normalizeOne, logFor, hd, hp, ih1, ih2]

/-! ## Scan lemmas for the whole-word property -/

theorem matchAt_of_large (wl t : List Char) (j : Nat) (hj : t.length < j) :
    matchAt wl t j = false := by
  have hdrop : t.drop j = [] := List.drop_eq_nil_of_le (Nat.le_of_lt hj)
  have hj0 : ¬ j = 0 := by omega
  have h0 : t[j]? = none := List.getElem?_eq_none (Nat.le_of_lt hj)
  have h1 : t[j - 1]? = none := List.getElem?_eq_none (by omega)
  cases wl with
  | nil => simp [matchAt, boundaryAt, wordCharAt, h0, h1, hj0]
  | cons c wl' => simp [matchAt, hdrop, List.isPrefixOf]

theorem scanFrom_eq_zero (wl t : List Char)
    (h : ∀ j, matchAt wl t j = false) :
    ∀ (fuel i : Nat), scanFrom wl t i fuel = 0
  | 0, _ => rfl
  | fuel + 1, i => by
    rw [scanFrom]
    by_cases hl : t.length < i
    · rw [if_pos hl]
    · rw [if_neg hl]
      simp only [h i, Bool.false_eq_true, if_false]
      exact scanFrom_eq_zero wl t h fuel (i + 1)

theorem scanFrom_zero_no_match (wl t : List Char) :
    ∀ (fuel i : Nat), t.length + 1 ≤ i + fuel → scanFrom wl t i fuel = 0 →
      ∀ j, i ≤ j → matchAt wl t j = false
  | 0, i => fun hb _ j hij => matchAt_of_large wl t j (by omega)
  | fuel + 1, i => by
    intro hb hs j hij
    rw [scanFrom] at hs
    by_cases hl : t.length < i
    · exact matchAt_of_large wl t j (by omega)
    · rw [if_neg hl] at hs
      cases hm : matchAt wl t i with
      | true => simp [hm] at hs
      | false =>
        simp only [hm, Bool.false_eq_true, if_false] at hs
        rcases Nat.eq_or_lt_of_le hij with rfl | hlt
        · exact hm
        · exact scanFrom_zero_no_match wl t fuel (i + 1) (by omega) hs j hlt

/-! ## Claim C9 -/

/-- Claim C9: word counting matches whole words only.  The count is zero
exactly when no position of the text carries a boundary-delimited
occurrence of the word, and concretely the word cat is counted zero times
in the text category even though it does occur there as a plain
substring. -/
theorem whole_word_matching :
    (∀ w t : List Char, countMatches w t = 0 ↔
      ∀ i, matchAt (w.map Char.toLower) t i = false) ∧
    countMatches "cat".data "category".data = 0 ∧
    List.isPrefixOf "cat".data "category".data = true := by
  refine ⟨fun w t => ⟨fun h i => ?_, fun h => ?_⟩, by decide, by decide⟩
  · exact scanFrom_zero_no_match (w.map Char.toLower) t (t.length + 1) 0
      (by omega) h i (Nat.zero_le i)
  · exact scanFrom_eq_zero (w.map Char.toLower) t h (t.length + 1) 0

/-! ## Claim C8 -/

/-- Claim C8: word counting is case-insensitive.  Two search words that
agree after lowercasing produce identical counts on every page list. -/
theorem word_count_case_insensitive (pages : List (List Char))
    (w w' : List Char)
    (h : w.map Char.toLower = w'.map Char.toLower) :
    (count_word_frequency pages [w]).map Prod.snd =
    (count_word_frequency pages [w']).map Prod.snd := by
  rw [count_word_frequency_single, count_word_frequency_single,
    totalMatches_lower_congr w w' pages h]
  rfl

/-- Witness for claim C8 at the spec example words Report and report. -/
theorem word_count_case_insensitive_witness :
    ("Report".data.map Char.toLower = "report".data.map Char.toLower) ∧
    (count_word_frequency [("My Report due").data] ["Report".data]).map Prod.snd =
      (count_word_frequency [("My Report due").data] ["report".data]).map Prod.snd :=
  ⟨by decide,
   word_count_case_insensitive [("My Report due").data] "Report".data
     "report".data (by decide)⟩

/-! ## Claim C3 -/

/-- Counterexample to claim C3: for typed search words the and The against
the text The cat sat, the result holds a single entry with count 2 (the
lowercasing in `get_words_to_search` makes both words the, and the dict
comprehension collapses the duplicate key while the counting loop still
visits it twice), not two entries with independent counts of 1. -/
theorem duplicate_words_cex :
    count_word_frequency [("The cat sat").data]
        (get_words_to_search ["the".data, "The".data]).1 =
      [("the".data, 2)] ∧
    ¬ (count_word_frequency [("The cat sat").data]
        (get_words_to_search ["the".data, "The".data]).1).length = 2 := by
  decide

/-- Claim C3 as amended: duplicate search words collapse into a single
result entry whose count accumulates once per duplicate occurrence of the
word in the list; concretely the inputs the and The yield the single entry
(the, 2) on the text The cat sat, and in general a doubled word yields one
entry carrying twice its total match count. -/
theorem duplicate_words_double_count_collapsed :
    count_word_frequency [("The cat sat").data]
        (get_words_to_search ["the".data, "The".data]).1 =
      [("the".data, 2)] ∧
    ∀ (w : List Char) (pages : List (List Char)),
      count_word_frequency pages [w, w] = [(w, 2 * totalMatches w pages)] :=
  ⟨by decide, fun w pages => count_word_frequency_pair w pages⟩

/-! ## Claim C7 -/

/-- Counterexample to claim C7: on a call whose export step raises, the
trace stops at the SaveAs attempt; neither `doc.Close()` nor `word.Quit()`
runs, so the document handle and the automation session are not released
before the call returns. -/
theorem convert_docx_leak_cex :
    (convert_docx_to_pdf_run (Except.ok ()) (Except.error "boom".data)).1 =
      [WEv.dispatch, WEv.openDoc, WEv.saveAs] ∧
    WEv.closeDoc ∉
      (convert_docx_to_pdf_run (Except.ok ()) (Except.error "boom".data)).1 ∧
    WEv.quitApp ∉
      (convert_docx_to_pdf_run (Except.ok ()) (Except.error "boom".data)).1 := by
  decide

/-- Claim C7 as amended: on a successful call the converter opens exactly
one document, exports it, and then releases the document handle and the
automation session, in that order, before returning; but when the export
(or the open) raises, the exception propagates and neither release step
runs. -/
theorem convert_docx_contract :
    ((convert_docx_to_pdf_run (Except.ok ()) (Except.ok ())).1 =
      [WEv.dispatch, WEv.openDoc, WEv.saveAs, WEv.closeDoc, WEv.quitApp]) ∧
    (∀ e : List Char,
      (convert_docx_to_pdf_run (Except.ok ()) (Except.error e)).1 =
        [WEv.dispatch, WEv.openDoc, WEv.saveAs] ∧
      (convert_docx_to_pdf_run (Except.ok ()) (Except.error e)).2 =
        Except.error e ∧
      WEv.closeDoc ∉ (convert_docx_to_pdf_run (Except.ok ()) (Except.error e)).1 ∧
      WEv.quitApp ∉ (convert_docx_to_pdf_run (Except.ok ()) (Except.error e)).1) ∧
    (∀ (e : List Char) (s : Except (List Char) Unit),
      (convert_docx_to_pdf_run (Except.error e) s).1 =
        [WEv.dispatch, WEv.openDoc]) :=
  ⟨rfl,
   fun e =>
     ⟨rfl, rfl,
      by show WEv.closeDoc ∉ [WEv.dispatch, WEv.openDoc, WEv.saveAs]; decide,
      by show WEv.quitApp ∉ [WEv.dispatch, WEv.openDoc, WEv.saveAs]; decide⟩,
   fun e s => rfl⟩

/-! ## Workspace-scoping lemmas -/

theorem mainBody_no_ws (o : Oracles) :
    ((mainBody o).evs.all fun e => !isWsEv e) = true := by
  obtain ⟨fi, conv, mr, cbr, er, si⟩ := o
  unfold mainBody
  by_cases h1 : fi = []
  · simp [h1, isWsEv]
  · simp only [h1, if_false, if_neg h1]
    cases mr with
    | error e => simp [isWsEv, List.all_append, List.all_map]
    | ok u =>
      cases cbr with
      | error e => simp [isWsEv, List.all_append, List.all_map]
      | ok u2 =>
        by_cases h2 : (get_words_to_search si).1 = []
        · simp [h2, isWsEv, List.all_append, List.all_map]
        · rw [if_neg h2]
          cases er with
          | error e => simp [isWsEv, List.all_append, List.all_map]
          | ok pages =>
            simp [isWsEv, List.all_append, List.all_map]
            rintro x a b hmem rfl
            rfl

/-! ## Claim C6 -/

/-- Claim C6: on every exit path of the pipeline run, over all oracle
behaviours (normal completion, the early no-files return, and an exception
raised at the merge, convert-back or count-words step), the trace of `main`
is the analysis log, then the creation of the temporary workspace, then
body events among which the workspace is neither created nor deleted, then
the single recursive deletion of the workspace, then trailing events that
also never touch the workspace: the workspace is created once and deleted
exactly once, before the run ends, on every path. -/
theorem temp_workspace_deleted_on_every_path (o : Oracles) :
    ∃ body tail,
      (main_run o).1 =
        Ev.log Msg.analysisStarted :: Ev.wsCreate ::
          (body ++ Ev.wsDelete :: tail) ∧
      (body.all fun e => !isWsEv e) = true ∧
      (tail.all fun e => !isWsEv e) = true := by
  have hb := mainBody_no_ws o
  cases ho : (mainBody o).outcome with
  | retEarly =>
    refine ⟨(mainBody o).evs, [], ?_, hb, rfl⟩
    simp [main_run, ho]
  | normal =>
    refine ⟨(mainBody o).evs, [Ev.log Msg.mergedSaved], ?_, hb, rfl⟩
    simp [main_run, ho]
  | raised e =>
    refine ⟨(mainBody o).evs, [Ev.log (Msg.errorOccurred e)], ?_, hb, rfl⟩
    simp [main_run, ho]

/-! ## Claim C4 -/

/-- Counterexample to claim C4: a concrete run (valid directory, empty
source directory) whose audit file misses messages emitted during the run;
the execution-completed message is logged but the audit file was already
written without it. -/
theorem audit_misses_final_messages_cex :
    (script_run true oraclesNoFiles).audit =
      some [Msg.execStarted, Msg.introBanner, Msg.analysisStarted,
        Msg.noFilesFound, Msg.fileShouldBe, Msg.fileNotCreated] ∧
    Msg.execCompleted ∈ (script_run true oraclesNoFiles).msgs ∧
    Msg.execCompleted ∉
      [Msg.execStarted, Msg.introBanner, Msg.analysisStarted,
        Msg.noFilesFound, Msg.fileShouldBe, Msg.fileNotCreated] := by
  decide

/-- Claim C4 as amended: on every valid-directory run the buffer is flushed
to the audit file exactly once, and the file holds exactly the messages
emitted before the flush; but the audit-created notice, the
execution-completed message and the total-time message are emitted after
the flush and are therefore excluded from the file.  On an
invalid-directory run the audit file is never written. -/
theorem audit_flush_position (o : Oracles) :
    (∃ flushed,
      (script_run true o).audit = some flushed ∧
      (script_run true o).msgs =
        flushed ++ [Msg.auditCreated, Msg.execCompleted, Msg.totalTime]) ∧
    (script_run false o).audit = none :=
  ⟨⟨_, rfl, rfl⟩, rfl⟩

/-! ## Claim C5 -/

/-- Counterexample to claim C5: in the concrete run whose source directory
matches zero files, the none-found message is logged and no output document
is created, yet the audit log file IS written (the write sits in the
top-level block after `main` returns; the early `return` only exits
`main`). -/
theorem no_files_audit_written_cex :
    Msg.noFilesFound ∈ (script_run true oraclesNoFiles).msgs ∧
    (script_run true oraclesNoFiles).outputWritten = false ∧
    (script_run true oraclesNoFiles).audit ≠ none := by
  decide

/-- Claim C5 as amended: when the source directory contains zero files with
word-processor or PDF extensions, the pipeline logs that none were found
and terminates without creating an output document; the audit log file is
nevertheless still written in this path, because the audit write happens in
the top-level block after `main` returns (only the invalid-directory path
skips it). -/
theorem no_files_path (o : Oracles) (h : o.inputFiles = []) :
    Msg.noFilesFound ∈ (script_run true o).msgs ∧
    (script_run true o).outputWritten = false ∧
    Ev.writeOutput ∉ (main_run o).1 ∧
    (script_run true o).audit.isSome = true := by
  simp [script_run, main_run, mainBody, h, evMsg]

/-- Witness for claim C5 at the concrete empty-directory run. -/
theorem no_files_path_witness :
    oraclesNoFiles.inputFiles = [] ∧
    (Msg.noFilesFound ∈ (script_run true oraclesNoFiles).msgs ∧
     (script_run true oraclesNoFiles).outputWritten = false ∧
     Ev.writeOutput ∉ (main_run oraclesNoFiles).1 ∧
     (script_run true oraclesNoFiles).audit.isSome = true) :=
  ⟨rfl, no_files_path oraclesNoFiles rfl⟩

/-! ## Claim C10 -/

/-- Claim C10: when the enumerated input list is non-empty but every entry
is unsupported or fails conversion, so the normalized PDF list is empty,
the controller still invokes the merge step with that empty list (the
merger precondition of at least one input is never checked). -/
theorem merge_invoked_on_empty (o : Oracles) (h1 : o.inputFiles ≠ [])
    (h2 : (ensure_pdf_format o.convert o.inputFiles).1 = []) :
    Ev.mergeInvoked [] ∈ (main_run o).1 := by
  obtain ⟨fi, conv, mr, cbr, er, si⟩ := o
  simp only [] at h1 h2
  cases mr with
  | error e => simp [main_run, mainBody, h1, h2]
  | ok u =>
    cases cbr with
    | error e => simp [main_run, mainBody, h1, h2]
    | ok u2 =>
      by_cases h3 : (get_words_to_search si).1 = []
      · simp [main_run, mainBody, h1, h2, h3]
      · cases er with
        | error e => simp [main_run, mainBody, h1, h2, h3]
        | ok pages => simp [main_run, mainBody, h1, h2, h3]

/-- Witness for claim C10 at a run enumerating one unsupported file whose
normalization yields the empty list. -/
theorem merge_invoked_on_empty_witness :
    oraclesUnsupported.inputFiles ≠ [] ∧
    (ensure_pdf_format oraclesUnsupported.convert
      oraclesUnsupported.inputFiles).1 = [] ∧
    Ev.mergeInvoked [] ∈ (main_run oraclesUnsupported).1 :=
  ⟨by decide, by decide,
   merge_invoked_on_empty oraclesUnsupported (by decide) (by decide)⟩
